import Mathlib

/-!
Verification of the hack24-bms battery telemetry logger and analytics engine.

This file shallowly embeds the two source modules that the claims are about:

* `src/logger.py` — `PowerStationLogger`: sysfs reads with defaulting
  (`_read_sysfs`, `_read_val_fallback`), one capture cycle
  (`capture_telemetry`), and the adaptive-interval policy inside `run`.
* `src/analytics.py` — `BMSAnalytics.analyze` and `_empty_metrics`.

Modelling conventions:

* Python floats are modelled as exact rationals `ℚ`; the voltage standard
  deviation (the only irrational quantity) lives in `ℝ` via `Real.sqrt`.
* `float('nan')` / `float('inf')` results and exceptions escaping a function
  are modelled with `Option`: `none` marks a non-finite result or a raised
  exception, as noted at each definition.
* Python `round(x, n)` is modelled as round-half-up to `n` decimals (CPython
  uses round-half-to-even; the two differ only at exact ties, which none of
  the theorems below touch). Python `int(x)` truncates toward zero.
* The `timestamp` column (an ISO-8601 string produced by `datetime.now()`)
  is omitted from the sample record: no claim depends on it.
-/

/-- Python `round(q, n)`: round to `n` decimal places. -/
def roundQ (n : ℕ) (q : ℚ) : ℚ := ((round (q * 10 ^ n) : ℤ) : ℚ) / 10 ^ n

/-- Python `int(q)`: truncation toward zero. -/
def truncQ (q : ℚ) : ℤ := if 0 ≤ q then ⌊q⌋ else ⌈q⌉

/-- One row of the durable log, as written by `capture_telemetry` and read
back by `BMSAnalytics` (`timestamp` omitted, see module comment). -/
structure Sample where
  pct : ℚ
  status : String
  voltage_v : ℚ
  current_a : ℚ
  power_w : ℚ
  temp_c : ℚ
  energy_wh : ℚ
  energy_full_wh : ℚ
  energy_design_wh : ℚ
  cycles : ℚ
  charge_rate_w : ℚ
deriving DecidableEq

/-- Row with all numeric fields zero, used as the (unreachable) default for
`List.getD` when `analyze` has already checked the list is nonempty. -/
def defaultSample : Sample :=
  { pct := 0, status := "", voltage_v := 0, current_a := 0, power_w := 0,
    temp_c := 0, energy_wh := 0, energy_full_wh := 0, energy_design_wh := 0,
    cycles := 0, charge_rate_w := 0 }

/-! ## Logger: sysfs reads and one capture cycle (`src/logger.py`) -/

/-- Observable behaviour of reading one sysfs node (`self.bat_path / node`):
the file may be absent (`path.exists()` false), unreadable (`read_text`
raises), readable but non-numeric (`float(...)` raises), or hold a numeric
value. -/
inductive NodeState where
  | absent
  | unreadable
  | garbage
  | value (v : ℚ)
deriving DecidableEq

/-- Hardware environment for one capture cycle: the battery directory's
nodes, the result of reading the `status` node (`none` models a raised
exception), and the discovered thermal zone (`none` means `_discover_thermal`
returned `None`; `some st` is the read behaviour of its `temp` file). -/
structure HwEnv where
  node : String → NodeState
  statusNode : Option String
  thermal : Option NodeState

/-- `PowerStationLogger._read_sysfs`: absent node falls through to `0.0`;
a raised exception (unreadable file or failed `float` parse) is caught and
yields `0.0`; otherwise the raw value divided by `scale`. -/
def read_sysfs (env : HwEnv) (n : String) (scale : ℚ) : ℚ :=
  match env.node n with
  | .value v => v / scale
  | _ => 0

/-- `PowerStationLogger._read_val_fallback`: first strictly-positive scaled
read among the candidate nodes, else `0.0`. -/
def read_val_fallback (env : HwEnv) (nodes : List String) (scale : ℚ) : ℚ :=
  match nodes with
  | [] => 0
  | n :: rest =>
      if read_sysfs env n scale > 0 then read_sysfs env n scale
      else read_val_fallback env rest scale

/-- The unguarded thermal read in `capture_telemetry` (lines 82–85):
`float(self.thermal_zone.read_text().strip())` followed by the
magnitude-based unit scaling. `none` models the exception escaping when the
file is unreadable or non-numeric. -/
def readThermal (st : NodeState) : Option ℚ :=
  match st with
  | .value v => some (if v > 1000 then v / 1000 else v / 10)
  | _ => none

/-- `PowerStationLogger.capture_telemetry`. Returns `none` when an exception
escapes: the only unguarded reads are the thermal-zone read (when a thermal
zone was discovered) and the `status` read (line 87); every `_read_sysfs`
based field defaults to `0.0` instead. -/
def capture_telemetry (env : HwEnv) : Option Sample :=
  let volts := read_sysfs env "voltage_now" 1000000
  let amps := read_sysfs env "current_now" 1000000
  let power0 := read_sysfs env "power_now" 1000000
  let power := if power0 = 0 ∧ volts * amps ≠ 0 then volts * amps else power0
  let tempOpt : Option ℚ :=
    match env.thermal with
    | none => some 0
    | some st => readThermal st
  match tempOpt, env.statusNode with
  | some temp, some status =>
      some
        { pct := (truncQ (read_sysfs env "capacity" 1) : ℚ)
          status := status
          voltage_v := roundQ 3 volts
          current_a := roundQ 3 amps
          power_w := roundQ 2 power
          temp_c := roundQ 1 temp
          energy_wh := read_sysfs env "energy_now" 1000000
          energy_full_wh := read_val_fallback env ["energy_full", "charge_full"] 1000000
          energy_design_wh := read_val_fallback env ["energy_full_design", "charge_full_design"] 1000000
          cycles := (truncQ (read_sysfs env "cycle_count" 1) : ℚ)
          charge_rate_w :=
            if status = "Charging" then roundQ 2 (volts * amps)
            else roundQ 2 (-(volts * amps)) }
  | _, _ => none

/-- `self.last_status = None` in `PowerStationLogger.__init__`. -/
def last_status_init : Option String := none

/-- The adaptive-sleep policy inlined in `PowerStationLogger.run`
(lines 125–129): high-res interval 2 when the status differs from the
remembered one or `abs(power_w) > 15`, economy interval 10 otherwise. -/
def nextInterval (last : Option String) (status : String) (power : ℚ) : ℕ :=
  if some status ≠ last ∨ |power| > 15 then 2 else 10

/-! ## Analytics (`src/analytics.py`) -/

/-- The health report returned by `analyze` (dict keys renamed to Lean
identifiers). `stability` is `Option ℝ`: `none` models the NaN that pandas
produces when every rolling window is shorter than 5 samples. -/
structure Report where
  soh : ℚ
  health_score : ℤ
  discharge_rate : ℚ
  stability : Option ℝ
  cycle_count : ℤ
  recommendations : List String

/-- `BMSAnalytics._empty_metrics`. -/
def empty_metrics : Report :=
  { soh := 0, health_score := 0, discharge_rate := 0, stability := some 0,
    cycle_count := 0, recommendations := ["Waiting for data..."] }

/-- `pandas.Series.max` over a nonempty column (the empty case, which pandas
answers with NaN, is unreachable behind the `len < 2` guard). -/
def listMax : List ℚ → ℚ
  | [] => 0
  | h :: t => t.foldl max h

/-- Sample variance with the `ddof=1` divisor used by
`pandas.rolling(...).std()`. -/
def sampleVar (l : List ℚ) : ℚ :=
  ((l.map (fun x => (x - l.sum / (l.length : ℚ)) ^ 2)).sum) / ((l.length : ℚ) - 1)

/-- Sample standard deviation of one rolling window. -/
noncomputable def sampleStd (l : List ℚ) : ℝ := Real.sqrt ((sampleVar l : ℚ) : ℝ)

/-- Python `round(x, 2)` on the real-valued stability index. -/
noncomputable def roundR2 (x : ℝ) : ℝ := ((round (x * 100) : ℤ) : ℝ) / 100

/-- `self.df['voltage_v'].rolling(window=5).std()`: entry `i` is the sample
standard deviation of rows `i-4 .. i`, and `none` (pandas NaN) while fewer
than 5 rows are available. -/
noncomputable def rollingStd5 (vs : List ℚ) : List (Option ℝ) :=
  (List.range vs.length).map
    (fun i => if 4 ≤ i then some (sampleStd ((vs.drop (i - 4)).take 5)) else none)

/-- `rolling_v.mean()`: pandas `mean` skips NaN entries; on an all-NaN series
it returns NaN (`none`). -/
noncomputable def rollingMeanStd (vs : List ℚ) : Option ℝ :=
  let stds := (rollingStd5 vs).filterMap id
  if stds.isEmpty then none else some (stds.sum / (stds.length : ℝ))

/-- `round(100 - rolling_v.mean() * 10, 2)`, with NaN propagated. -/
noncomputable def stabilityIndex (vs : List ℚ) : Option ℝ :=
  (rollingMeanStd vs).map (fun m => roundR2 (100 - m * 10))

/-- Sum of the first `n` x-positions `0, 1, …, n-1` of the regression. -/
def sNat (n : ℕ) : ℚ := ∑ i in Finset.range n, (i : ℚ)

/-- Sum of squared x-positions. -/
def sSq (n : ℕ) : ℚ := ∑ i in Finset.range n, ((i : ℚ)) ^ 2

/-- Sum of the y-values (charge-percent column of the regression window). -/
def sY (ys : List ℚ) : ℚ := ∑ i in Finset.range ys.length, ys.getD i 0

/-- Sum of x·y cross terms. -/
def sXY (ys : List ℚ) : ℚ := ∑ i in Finset.range ys.length, (i : ℚ) * ys.getD i 0

/-- Numerator `n·Σxy − Σx·Σy` of the ordinary-least-squares slope. -/
def olsNum (ys : List ℚ) : ℚ := (ys.length : ℚ) * sXY ys - sNat ys.length * sY ys

/-- Denominator `n·Σx² − (Σx)²` of the ordinary-least-squares slope. -/
def olsDen (ys : List ℚ) : ℚ := (ys.length : ℚ) * sSq ys.length - (sNat ys.length) ^ 2

/-- Slope of `sklearn.linear_model.LinearRegression().fit(x, y)` where `x`
is `0 .. n-1`: the unique least-squares line's slope in closed form. -/
def olsSlope (ys : List ℚ) : ℚ := olsNum ys / olsDen ys

/-- Advisory emitted when the latest temperature exceeds 40. -/
def tempAdvisory : String := "Critical: Thermal throttling advised. High temp reduces lifespan."

/-- Advisory emitted when SoH is below 80. -/
def sohAdvisory : String := "Battery reaching End-of-Life (SoH < 80%). Consider replacement."

/-- Advisory emitted when the discharge slope is below -0.5. -/
def slopeAdvisory : String := "Rapid Discharge: Heavy background processes detected."

/-- Body of `BMSAnalytics.analyze` past its guards (lines 16–54): the report
built from the full sample sequence. -/
noncomputable def report_of (samples : List Sample) : Report :=
  let latest := samples.getLast?.getD defaultSample
  let soh : ℚ := latest.energy_full_wh / latest.energy_design_wh * 100
  let cycle_penalty : ℚ := min 20 (latest.cycles / 1000 * 20)
  let temp_penalty : ℚ := if listMax (samples.map Sample.temp_c) > 45 then 20 else 0
  let health_score : ℚ := soh * (3 / 5) + (20 - cycle_penalty) + (20 - temp_penalty)
  let slope : ℚ := olsSlope ((samples.drop (samples.length - 10)).map Sample.pct)
  { soh := roundQ 2 soh
    health_score := truncQ health_score
    discharge_rate := roundQ 3 slope
    stability := stabilityIndex (samples.map Sample.voltage_v)
    cycle_count := truncQ latest.cycles
    recommendations :=
      (if latest.temp_c > 40 then [tempAdvisory] else [])
        ++ (if soh < 80 then [sohAdvisory] else [])
        ++ (if slope < -(1 / 2) then [slopeAdvisory] else []) }

/-- `BMSAnalytics.analyze`. The source divides
`latest['energy_full_wh'] / latest['energy_design_wh']` with no guard: when
the design energy is 0 the numpy quotient is `inf` (or `nan` for 0/0), the
derived `health_score` is non-finite, and `int(health_score)` raises
`OverflowError`/`ValueError`, so no report is produced — modelled as `none`.
(`0.6` in the health score is the exact rational 3/5 here; CPython's binary
float `0.6` differs by < 2⁻⁵³, which no theorem below depends on.) -/
noncomputable def analyze (samples : List Sample) : Option Report :=
  if samples.length < 2 then some empty_metrics
  else if (samples.getLast?.getD defaultSample).energy_design_wh = 0 then none
  else some (report_of samples)

/-- Modelled from the spec wording for the stability metric: the trailing
windows of 5 consecutive samples, rolling across the whole sequence, that
are full length (shorter prefixes contribute no value). Compared below with
the source's `rolling(window=5)` computation. -/
def specWindows5 (vs : List ℚ) : List (List ℚ) :=
  (List.range (vs.length - 4)).map (fun j => (vs.drop j).take 5)

/-! ## Concrete capture environments and sample histories used as inputs -/

/-- Two well-formed rows whose latest row reports a zero design energy, as
happens whenever the host exposes neither `energy_full_design` nor
`charge_full_design` (the fallback read returns 0.0). -/
def zeroDesignSamples : List Sample :=
  [ { defaultSample with
        pct := 80, status := "Discharging",
        energy_full_wh := 50, energy_design_wh := 50 },
    { defaultSample with
        pct := 79, status := "Discharging",
        energy_full_wh := 50, energy_design_wh := 0 } ]

/-- Battery directory where every node read fails one way or another:
`voltage_now` exists but is unreadable, `current_now` holds unparsable text,
everything else is missing. -/
def faultyNodes : String → NodeState := fun n =>
  if n = "voltage_now" then .unreadable
  else if n = "current_now" then .garbage
  else .absent

/-- Capture environment with every `_read_sysfs` node failing but no thermal
zone and a readable status. -/
def envAbsorbed : HwEnv :=
  { node := faultyNodes, statusNode := some "Discharging", thermal := none }

/-- Same environment except a thermal zone was discovered and its `temp`
file holds unparsable text. -/
def envBadThermal : HwEnv :=
  { node := faultyNodes, statusNode := some "Discharging", thermal := some .garbage }

/-- Capture environment reporting a negative instantaneous current (12 V,
−1 A) while discharging. -/
def envNegCurrent : HwEnv :=
  { node := fun n =>
      if n = "voltage_now" then .value 12000000
      else if n = "current_now" then .value (-1000000)
      else .absent,
    statusNode := some "Discharging", thermal := none }

/-- Capture environment reporting 12 V, +1 A while discharging. -/
def envPosCurrent : HwEnv :=
  { node := fun n =>
      if n = "voltage_now" then .value 12000000
      else if n = "current_now" then .value 1000000
      else .absent,
    statusNode := some "Discharging", thermal := none }

/-- Two healthy samples: SoH 75 %, 500 cycles, no sample above 45 °C. -/
def healthSamples : List Sample :=
  [ { defaultSample with
        pct := 80, status := "Discharging", voltage_v := 12, temp_c := 30,
        energy_full_wh := 75, energy_design_wh := 100, cycles := 500 },
    { defaultSample with
        pct := 79, status := "Discharging", voltage_v := 12, temp_c := 31,
        energy_full_wh := 75, energy_design_wh := 100, cycles := 500 } ]

/-- Two samples triggering all three advisories: latest temperature 41 °C,
SoH 75 %, OLS slope (9.4 − 10) = −0.6. -/
def tripleTriggerSamples : List Sample :=
  [ { defaultSample with
        pct := 10, status := "Discharging", voltage_v := 12, temp_c := 40,
        energy_full_wh := 75, energy_design_wh := 100 },
    { defaultSample with
        pct := 47 / 5, status := "Discharging", voltage_v := 12, temp_c := 41,
        energy_full_wh := 75, energy_design_wh := 100 } ]

/-- Two samples with strictly decreasing charge percent 90, 80. -/
def dischargeSamples : List Sample :=
  [ { defaultSample with
        pct := 90, status := "Discharging", voltage_v := 12, temp_c := 30,
        energy_full_wh := 90, energy_design_wh := 100 },
    { defaultSample with
        pct := 80, status := "Discharging", voltage_v := 12, temp_c := 30,
        energy_full_wh := 90, energy_design_wh := 100 } ]

/-- Five samples, enough history for one full rolling voltage window. -/
def stabilitySamples5 : List Sample :=
  [ { defaultSample with
        pct := 84, status := "Discharging", voltage_v := 12, temp_c := 30,
        energy_full_wh := 90, energy_design_wh := 100 },
    { defaultSample with
        pct := 83, status := "Discharging", voltage_v := 121 / 10, temp_c := 30,
        energy_full_wh := 90, energy_design_wh := 100 },
    { defaultSample with
        pct := 82, status := "Discharging", voltage_v := 12, temp_c := 30,
        energy_full_wh := 90, energy_design_wh := 100 },
    { defaultSample with
        pct := 81, status := "Discharging", voltage_v := 119 / 10, temp_c := 30,
        energy_full_wh := 90, energy_design_wh := 100 },
    { defaultSample with
        pct := 80, status := "Discharging", voltage_v := 12, temp_c := 30,
        energy_full_wh := 90, energy_design_wh := 100 } ]

/-! ## Helper lemmas -/

/-- Rounding to decimals preserves non-negativity. -/
lemma roundQ_nonneg (n : ℕ) (q : ℚ) (h : 0 ≤ q) : 0 ≤ roundQ n q := by
  unfold roundQ
  apply div_nonneg _ (by positivity)
  have h1 : (0 : ℤ) ≤ round (q * 10 ^ n) := by
    rw [round_eq]
    apply Int.le_floor.mpr
    push_cast
    positivity
  exact_mod_cast h1

/-- Rounding to decimals preserves non-positivity. -/
lemma roundQ_nonpos (n : ℕ) (q : ℚ) (h : q ≤ 0) : roundQ n q ≤ 0 := by
  unfold roundQ
  have h1 : round (q * 10 ^ n) ≤ 0 := by
    rw [round_eq]
    have h2 : ⌊q * 10 ^ n + 1 / 2⌋ < 1 := by
      apply Int.floor_lt.mpr
      push_cast
      nlinarith [pow_pos (show (0:ℚ) < 10 by norm_num) n]
    omega
  apply div_nonpos_of_nonpos_of_nonneg _ (by positivity)
  exact_mod_cast h1

/-- Expansion of the double sum of products of pairwise differences: the
classical identity `∑ (fᵢ−fⱼ)(gᵢ−gⱼ) = 2(n·∑ fg − ∑f·∑g)` over all ordered
index pairs. -/
lemma sum_pair_expand (n : ℕ) (f g : ℕ → ℚ) :
    ∑ p in Finset.range n ×ˢ Finset.range n, (f p.1 - f p.2) * (g p.1 - g p.2)
      = 2 * ((n : ℚ) * (∑ i in Finset.range n, f i * g i)
          - (∑ i in Finset.range n, f i) * (∑ i in Finset.range n, g i)) := by
  rw [Finset.sum_product]
  have hrow : ∀ i, ∑ j in Finset.range n, (f i - f j) * (g i - g j)
      = (n : ℚ) * (f i * g i) - f i * (∑ j in Finset.range n, g j)
        - (∑ j in Finset.range n, f j) * g i + ∑ j in Finset.range n, f j * g j := by
    intro i
    have e : ∀ j ∈ Finset.range n, (f i - f j) * (g i - g j)
        = f i * g i - f i * g j - f j * g i + f j * g j := fun j _ => by ring
    rw [Finset.sum_congr rfl e, Finset.sum_add_distrib, Finset.sum_sub_distrib,
      Finset.sum_sub_distrib, Finset.sum_const, Finset.card_range, nsmul_eq_mul,
      ← Finset.mul_sum, ← Finset.sum_mul]
  rw [Finset.sum_congr rfl fun i _ => hrow i, Finset.sum_add_distrib,
    Finset.sum_sub_distrib, Finset.sum_sub_distrib, ← Finset.mul_sum,
    ← Finset.sum_mul, ← Finset.mul_sum, Finset.sum_const, Finset.card_range,
    nsmul_eq_mul]
  ring

/-- The OLS denominator `n·∑x² − (∑x)²` over `x = 0 … n−1` is positive once
there are at least two points. -/
lemma olsDen_pos (ys : List ℚ) (h2 : 2 ≤ ys.length) : 0 < olsDen ys := by
  have h := sum_pair_expand ys.length (fun i => (i : ℚ)) (fun i => (i : ℚ))
  have hpos : 0 < ∑ p in Finset.range ys.length ×ˢ Finset.range ys.length,
      ((p.1 : ℚ) - p.2) * ((p.1 : ℚ) - p.2) := by
    apply Finset.sum_pos'
    · intro p _
      exact mul_self_nonneg _
    · refine ⟨(1, 0), Finset.mem_product.mpr
        ⟨Finset.mem_range.mpr (by omega), Finset.mem_range.mpr (by omega)⟩, by norm_num⟩
  rw [h] at hpos
  have hsq : sSq ys.length = ∑ i in Finset.range ys.length, (i : ℚ) * i :=
    Finset.sum_congr rfl fun i _ => sq ((i : ℚ))
  have hsn : sNat ys.length ^ 2
      = (∑ i in Finset.range ys.length, (i : ℚ)) * (∑ i in Finset.range ys.length, (i : ℚ)) := by
    unfold sNat
    rw [sq]
  unfold olsDen
  rw [hsq, hsn]
  linarith

/-- The OLS numerator is negative on a strictly decreasing y-sequence of at
least two points. -/
lemma olsNum_neg (ys : List ℚ) (h2 : 2 ≤ ys.length)
    (hdec : ∀ i j, i < j → j < ys.length → ys.getD j 0 < ys.getD i 0) :
    olsNum ys < 0 := by
  have h := sum_pair_expand ys.length (fun i => (i : ℚ)) (fun i => ys.getD i 0)
  have hneg : ∑ p in Finset.range ys.length ×ˢ Finset.range ys.length,
      ((p.1 : ℚ) - p.2) * (ys.getD p.1 0 - ys.getD p.2 0) < 0 := by
    have hle : ∀ p ∈ Finset.range ys.length ×ˢ Finset.range ys.length,
        ((p.1 : ℚ) - p.2) * (ys.getD p.1 0 - ys.getD p.2 0) ≤ (fun _ => (0 : ℚ)) p := by
      intro p hp
      obtain ⟨hp1, hp2⟩ := Finset.mem_product.mp hp
      rw [Finset.mem_range] at hp1 hp2
      rcases lt_trichotomy p.1 p.2 with hlt | heq | hgt
      · apply mul_nonpos_iff.mpr
        refine Or.inr ⟨?_, ?_⟩
        · have hc : (p.1 : ℚ) ≤ p.2 := by exact_mod_cast le_of_lt hlt
          linarith
        · have := hdec p.1 p.2 hlt hp2
          linarith
      · rw [heq]
        simp
      · apply mul_nonpos_iff.mpr
        refine Or.inl ⟨?_, ?_⟩
        · have hc : (p.2 : ℚ) ≤ p.1 := by exact_mod_cast le_of_lt hgt
          linarith
        · have := hdec p.2 p.1 hgt hp1
          linarith
    have hex : ∃ p ∈ Finset.range ys.length ×ˢ Finset.range ys.length,
        ((p.1 : ℚ) - p.2) * (ys.getD p.1 0 - ys.getD p.2 0) < (fun _ => (0 : ℚ)) p := by
      refine ⟨(0, 1), Finset.mem_product.mpr
        ⟨Finset.mem_range.mpr (by omega), Finset.mem_range.mpr (by omega)⟩, ?_⟩
      have := hdec 0 1 (by omega) (by omega)
      simp only [Nat.cast_zero, Nat.cast_one]
      nlinarith
    have hsum := Finset.sum_lt_sum hle hex
    simpa using hsum
  rw [h] at hneg
  unfold olsNum sXY sNat sY
  linarith

/-- OLS slope is negative on a strictly decreasing sequence. -/
lemma olsSlope_neg (ys : List ℚ) (h2 : 2 ≤ ys.length)
    (hdec : ∀ i j, i < j → j < ys.length → ys.getD j 0 < ys.getD i 0) :
    olsSlope ys < 0 :=
  div_neg_of_neg_of_pos (olsNum_neg ys h2 hdec) (olsDen_pos ys h2)

/-- OLS slope of a constant sequence is zero. -/
lemma olsSlope_const (ys : List ℚ) (c : ℚ) (hc : ∀ x ∈ ys, x = c) :
    olsSlope ys = 0 := by
  have hget : ∀ i ∈ Finset.range ys.length, ys.getD i 0 = c := by
    intro i hi
    rw [Finset.mem_range] at hi
    rw [List.getD_eq_getElem ys 0 hi]
    exact hc _ (List.getElem_mem hi)
  have hxy : sXY ys = sNat ys.length * c := by
    unfold sXY sNat
    rw [Finset.sum_congr rfl fun i hi => by rw [hget i hi], ← Finset.sum_mul]
  have hy : sY ys = (ys.length : ℚ) * c := by
    unfold sY
    rw [Finset.sum_congr rfl hget, Finset.sum_const, Finset.card_range, nsmul_eq_mul]
  unfold olsSlope olsNum
  rw [hxy, hy]
  have hz : (ys.length : ℚ) * (sNat ys.length * c)
      - sNat ys.length * ((ys.length : ℚ) * c) = 0 := by ring
  rw [hz, zero_div]

/-- OLS slope through exactly two points is their difference. -/
lemma olsSlope_two (a b : ℚ) : olsSlope [a, b] = b - a := by
  unfold olsSlope olsNum olsDen sXY sY sNat sSq
  norm_num [Finset.sum_range_succ]
  ring

/-- Reindexing a guarded `filterMap` over `range (k + m)`. -/
lemma filterMap_if_range (k m : ℕ) (F : ℕ → Option ℝ) :
    (List.range (k + m)).filterMap (fun i => if k ≤ i then F i else none)
      = (List.range m).filterMap (fun j => F (k + j)) := by
  rw [List.range_add, List.filterMap_append]
  have h1 : (List.range k).filterMap (fun i => if k ≤ i then F i else none) = [] := by
    rw [List.filterMap_eq_nil_iff]
    intro a ha
    rw [List.mem_range] at ha
    rw [if_neg (by omega)]
  have h2 : (List.map (fun x => k + x) (List.range m)).filterMap
      (fun i => if k ≤ i then F i else none)
      = (List.range m).filterMap (fun j => F (k + j)) := by
    rw [List.filterMap_map]
    apply List.filterMap_congr
    intro j _
    simp [Function.comp, Nat.le_add_right]
  rw [h1, h2, List.nil_append]

/-- The non-NaN entries of the rolling standard-deviation series are exactly
the standard deviations of the spec's full 5-sample windows. -/
lemma rolling_filterMap (vs : List ℚ) :
    (rollingStd5 vs).filterMap id = (specWindows5 vs).map sampleStd := by
  unfold rollingStd5 specWindows5
  rw [List.filterMap_map]
  rcases le_or_lt vs.length 4 with h4 | h4
  · have hn : vs.length - 4 = 0 := by omega
    rw [hn]
    simp only [List.range_zero, List.map_nil]
    rw [List.filterMap_eq_nil_iff]
    intro a ha
    rw [List.mem_range] at ha
    simp [Function.comp, if_neg (show ¬4 ≤ a by omega)]
  · obtain ⟨m, hm⟩ : ∃ m, vs.length = 4 + m := ⟨vs.length - 4, by omega⟩
    rw [hm]
    have hcomp : (id ∘ fun i =>
        if 4 ≤ i then some (sampleStd ((vs.drop (i - 4)).take 5)) else none)
        = fun i => if 4 ≤ i then
            (fun i2 => some (sampleStd ((vs.drop (i2 - 4)).take 5))) i else none := rfl
    rw [hcomp, filterMap_if_range]
    have hsub : (4 + m) - 4 = m := by omega
    rw [hsub, List.map_map]
    have hmap : ((List.range m).filterMap
        (fun j => some (sampleStd ((vs.drop (4 + j - 4)).take 5))))
        = (List.range m).map (fun j => sampleStd ((vs.drop (4 + j - 4)).take 5)) :=
      congrFun (List.filterMap_eq_map (fun j => sampleStd ((vs.drop (4 + j - 4)).take 5)))
        (List.range m)
    rw [hmap]
    apply List.map_congr_left
    intro j _
    have : 4 + j - 4 = j := by omega
    rw [this]
    rfl

/-- Every spec window is exactly 5 samples long. -/
lemma stability_window_lengths (vs : List ℚ) :
    ∀ w ∈ specWindows5 vs, w.length = 5 := by
  intro w hw
  unfold specWindows5 at hw
  rw [List.mem_map] at hw
  obtain ⟨j, hj, rfl⟩ := hw
  rw [List.mem_range] at hj
  simp only [List.length_take, List.length_drop]
  omega

/-- Closed form of the stability index: defined (as the rounded
`100 − 10·mean`) exactly when at least one full 5-sample window exists. -/
lemma stabilityIndex_eq (vs : List ℚ) :
    stabilityIndex vs =
      if 5 ≤ vs.length
      then some (roundR2 (100 - (((specWindows5 vs).map sampleStd).sum /
          (((specWindows5 vs).map sampleStd).length : ℝ)) * 10))
      else none := by
  unfold stabilityIndex rollingMeanStd
  rw [rolling_filterMap]
  rcases le_or_lt 5 vs.length with h5 | h5
  · rw [if_pos h5]
    have hne : (specWindows5 vs).map sampleStd ≠ [] := by
      unfold specWindows5
      simp only [ne_eq, List.map_eq_nil_iff, List.range_eq_nil]
      omega
    simp [List.isEmpty_eq_false.mpr hne]
  · have hc : ¬(5 ≤ vs.length) := by omega
    rw [if_neg hc]
    have hnil : (specWindows5 vs).map sampleStd = [] := by
      unfold specWindows5
      have h0 : vs.length - 4 = 0 := by omega
      rw [h0]
      simp
    simp [hnil]

/-! ## Claim C2: degenerate report on fewer than two samples -/

/-- C2: for every sample sequence of length < 2 (the empty sequence
included), `analyze` returns the fixed degenerate report whose numeric
fields (SoH, health score, discharge rate, stability index, cycle count) are
all 0 and whose recommendation list is exactly `["Waiting for data..."]`. -/
theorem analyze_short_input (samples : List Sample) (h : samples.length < 2) :
    analyze samples = some empty_metrics
      ∧ empty_metrics.soh = 0
      ∧ empty_metrics.health_score = 0
      ∧ empty_metrics.discharge_rate = 0
      ∧ empty_metrics.stability = some 0
      ∧ empty_metrics.cycle_count = 0
      ∧ empty_metrics.recommendations = ["Waiting for data..."] := by
  refine ⟨?_, rfl, rfl, rfl, rfl, rfl, rfl⟩
  unfold analyze
  rw [if_pos h]

/-- Witness for C2 at the empty sequence. -/
theorem analyze_short_input_witness :
    ([] : List Sample).length < 2
      ∧ (analyze [] = some empty_metrics
          ∧ empty_metrics.soh = 0
          ∧ empty_metrics.health_score = 0
          ∧ empty_metrics.discharge_rate = 0
          ∧ empty_metrics.stability = some 0
          ∧ empty_metrics.cycle_count = 0
          ∧ empty_metrics.recommendations = ["Waiting for data..."]) :=
  ⟨by decide, analyze_short_input [] (by decide)⟩

/-! ## Claim C4: adaptive sampling policy -/

/-- C4: the next interval is the high-res constant 2 exactly when the status
differs from the remembered previous status or `|power| > 15`, and the
economy constant 10 in every other case; in particular the three sampler
examples from the spec hold. -/
theorem nextInterval_policy :
    (∀ (last : Option String) (status : String) (power : ℚ),
        nextInterval last status power = 2 ↔ (some status ≠ last ∨ |power| > 15))
      ∧ (∀ (last : Option String) (status : String) (power : ℚ),
          nextInterval last status power = 10 ↔ ¬(some status ≠ last ∨ |power| > 15))
      ∧ nextInterval (some "Discharging") "Charging" 5 = 2
      ∧ nextInterval (some "Discharging") "Discharging" 3 = 10
      ∧ nextInterval (some "Discharging") "Discharging" 20 = 2 := by
  refine ⟨?_, ?_, by decide, by decide, by decide⟩
  · intro last status power
    unfold nextInterval
    split_ifs with h
    · simp [h]
    · simp [h]
  · intro last status power
    unfold nextInterval
    split_ifs with h
    · simp [h]
    · simp [h]

/-! ## Claim C1: unguarded SoH division -/

/-- C1 (refuting evaluation): on a two-sample history whose latest sample
has `energy_design_wh = 0`, `analyze` does not report `SoH = 0` — the
unguarded division makes SoH non-finite and `int(health_score)` raises, so
no report is produced at all (`none`). -/
theorem analyze_zero_design_energy_faults : analyze zeroDesignSamples = none := by
  simp [analyze, zeroDesignSamples, defaultSample, List.getLast?]

/-! ## Claim C3: read failures during a capture cycle -/

/-- C3 (refuting evaluation): failures of the `_read_sysfs`-based reads are
indeed absorbed as 0.0 defaults and the capture completes — but a failing
thermal-zone read is NOT absorbed: `capture_telemetry` evaluates the
unguarded `float(self.thermal_zone.read_text())` and the exception escapes
(`none`), aborting the loop, contrary to the claim that no per-sample read
failure ever propagates out of the capture step. -/
theorem capture_thermal_read_escapes :
    capture_telemetry envAbsorbed =
        some { pct := 0, status := "Discharging", voltage_v := 0, current_a := 0,
               power_w := 0, temp_c := 0, energy_wh := 0, energy_full_wh := 0,
               energy_design_wh := 0, cycles := 0, charge_rate_w := 0 }
      ∧ capture_telemetry envBadThermal = none := by
  constructor
  · simp [capture_telemetry, envAbsorbed, faultyNodes, read_sysfs,
      read_val_fallback, readThermal, roundQ, truncQ, round_eq]
    norm_num
  · simp [capture_telemetry, envBadThermal, readThermal]

/-! ## Claim C9: charge-rate sign convention -/

/-- C9 counterexample: a captured sample whose status is not `"Charging"`
can still have a strictly positive `charge_rate_w` — with volts 12 and amps
−1 the code negates the (already negative) product and reports +12, so
`charge_rate_w` is not non-positive outside of charging for every
combination of voltage and current readings. -/
theorem charge_rate_discharging_positive :
    (capture_telemetry envNegCurrent).map Sample.charge_rate_w = some 12
      ∧ (capture_telemetry envNegCurrent).map Sample.status = some "Discharging"
      ∧ ¬((12 : ℚ) ≤ 0) := by
  refine ⟨?_, ?_, by norm_num⟩
  · simp [capture_telemetry, envNegCurrent, read_sysfs]
    norm_num [roundQ, round_eq]
  · simp [capture_telemetry, envNegCurrent, read_sysfs]

/-- What `capture_telemetry` stores in `charge_rate_w`, in terms of the
sample's own stored status string. -/
lemma capture_charge_rate (env : HwEnv) (s : Sample)
    (h : capture_telemetry env = some s) :
    s.charge_rate_w =
      if s.status = "Charging"
      then roundQ 2 (read_sysfs env "voltage_now" 1000000 *
            read_sysfs env "current_now" 1000000)
      else roundQ 2 (-(read_sysfs env "voltage_now" 1000000 *
            read_sysfs env "current_now" 1000000)) := by
  unfold capture_telemetry at h
  rcases hth : env.thermal with _ | st
  · rw [hth] at h
    rcases hst : env.statusNode with _ | status
    · rw [hst] at h
      simp at h
    · rw [hst] at h
      simp only [Option.some.injEq] at h
      rw [← h]
  · rw [hth] at h
    rcases st with _ | _ | _ | v
    · simp [readThermal] at h
    · simp [readThermal] at h
    · simp [readThermal] at h
    · rcases hst : env.statusNode with _ | status
      · rw [hst] at h
        simp [readThermal] at h
      · rw [hst] at h
        simp only [readThermal, Option.some.injEq] at h
        rw [← h]

/-- C9 (amended): for every captured sample, `charge_rate_w` is the rounded
product volts·amps when the status string is `"Charging"` and the rounded
negation of that product otherwise; whenever the product is non-negative
this makes the charge rate non-negative while charging and non-positive
otherwise. -/
theorem charge_rate_sign_convention (env : HwEnv) (s : Sample)
    (h : capture_telemetry env = some s) :
    (s.charge_rate_w =
        if s.status = "Charging"
        then roundQ 2 (read_sysfs env "voltage_now" 1000000 *
              read_sysfs env "current_now" 1000000)
        else roundQ 2 (-(read_sysfs env "voltage_now" 1000000 *
              read_sysfs env "current_now" 1000000)))
      ∧ (0 ≤ read_sysfs env "voltage_now" 1000000 *
            read_sysfs env "current_now" 1000000 →
          (s.status ≠ "Charging" → s.charge_rate_w ≤ 0)
            ∧ (s.status = "Charging" → 0 ≤ s.charge_rate_w)) := by
  have hcr := capture_charge_rate env s h
  refine ⟨hcr, fun hva => ⟨fun hne => ?_, fun heq => ?_⟩⟩
  · rw [hcr, if_neg hne]
    exact roundQ_nonpos 2 _ (by linarith)
  · rw [hcr, if_pos heq]
    exact roundQ_nonneg 2 _ hva

/-- Witness for C9 (amended) at the 12 V, +1 A discharging environment. -/
theorem charge_rate_sign_convention_witness :
    capture_telemetry envPosCurrent =
        some ((capture_telemetry envPosCurrent).getD defaultSample)
      ∧ ((capture_telemetry envPosCurrent).getD defaultSample).charge_rate_w ≤ 0 := by
  refine ⟨rfl, ?_⟩
  have h := charge_rate_sign_convention envPosCurrent
    ((capture_telemetry envPosCurrent).getD defaultSample) rfl
  refine (h.2 ?_).1 ?_
  · simp [read_sysfs, envPosCurrent]
    norm_num
  · simp [capture_telemetry, envPosCurrent]

/-! ## Claim C6: health-score composite -/

/-- On at least two samples, a produced report is exactly `report_of` and
the latest sample's design energy is nonzero. -/
lemma analyze_some (samples : List Sample) (r : Report) (h2 : 2 ≤ samples.length)
    (h : analyze samples = some r) :
    r = report_of samples
      ∧ (samples.getLast?.getD defaultSample).energy_design_wh ≠ 0 := by
  unfold analyze at h
  rw [if_neg (by omega)] at h
  by_cases hd : (samples.getLast?.getD defaultSample).energy_design_wh = 0
  · rw [if_pos hd] at h
    exact absurd h (by simp)
  · rw [if_neg hd] at h
    simp only [Option.some.injEq] at h
    exact ⟨h.symm, hd⟩

/-- Pushing a strict lower bound through a left fold of `max`. -/
lemma lt_foldl_max (c a : ℚ) (l : List ℚ) :
    c < l.foldl max a ↔ c < a ∨ ∃ x ∈ l, c < x := by
  induction l generalizing a with
  | nil => simp
  | cons h t ih =>
      rw [List.foldl_cons, ih, lt_max_iff]
      simp only [List.exists_mem_cons_iff]
      tauto

/-- `pandas.Series.max() > c` on a nonempty column is membership of some
element above `c`. -/
lemma lt_listMax_iff (c : ℚ) (l : List ℚ) (hl : l ≠ []) :
    c < listMax l ↔ ∃ x ∈ l, c < x := by
  cases l with
  | nil => exact absurd rfl hl
  | cons h t =>
      rw [listMax, lt_foldl_max]
      simp only [List.exists_mem_cons_iff]

/-- C6: for every sample sequence of length ≥ 2 on which a report is
produced, the health score is `SoH · 0.6 + (20 − cycle_penalty) +
(20 − temp_penalty)` truncated to an integer, with
`cycle_penalty = min 20 (cycles/1000·20)` of the latest sample and
`temp_penalty = 20` exactly when some sample anywhere in the history has
`temp_c > 45` (else 0). -/
theorem health_score_formula (samples : List Sample) (r : Report)
    (h2 : 2 ≤ samples.length) (h : analyze samples = some r) :
    r.health_score =
      truncQ ((samples.getLast?.getD defaultSample).energy_full_wh /
            (samples.getLast?.getD defaultSample).energy_design_wh * 100 * (3 / 5)
          + (20 - min 20 ((samples.getLast?.getD defaultSample).cycles / 1000 * 20))
          + (20 - if ∃ s ∈ samples, s.temp_c > 45 then (20 : ℚ) else 0)) := by
  obtain ⟨hr, -⟩ := analyze_some samples r h2 h
  subst hr
  have hne : samples.map Sample.temp_c ≠ [] := by
    simp only [ne_eq, List.map_eq_nil_iff]
    intro hnil
    rw [hnil] at h2
    simp at h2
  have hiff : (listMax (samples.map Sample.temp_c) > 45) ↔ (∃ s ∈ samples, s.temp_c > 45) := by
    rw [gt_iff_lt, lt_listMax_iff _ _ hne]
    constructor
    · rintro ⟨x, hx, hxlt⟩
      rw [List.mem_map] at hx
      obtain ⟨s, hs, rfl⟩ := hx
      exact ⟨s, hs, hxlt⟩
    · rintro ⟨s, hs, hslt⟩
      exact ⟨s.temp_c, List.mem_map_of_mem Sample.temp_c hs, hslt⟩
  simp only [report_of]
  rw [if_congr hiff rfl rfl]

/-- Witness for C6: SoH 75 gives 45 points, 500 cycles cost 10 of 20, cool
history keeps all 20 thermal points — health score 75. -/
theorem health_score_formula_witness :
    2 ≤ healthSamples.length
      ∧ analyze healthSamples = some (report_of healthSamples)
      ∧ (report_of healthSamples).health_score = 75 := by
  have hsome : analyze healthSamples = some (report_of healthSamples) := by
    norm_num [analyze, healthSamples, defaultSample, List.getLast?]
  refine ⟨by norm_num [healthSamples], hsome, ?_⟩
  have h := health_score_formula healthSamples (report_of healthSamples)
    (by norm_num [healthSamples]) hsome
  rw [h]
  have hnohot : ¬(∃ s ∈ healthSamples, s.temp_c > 45) := by
    rintro ⟨s, hs, hlt⟩
    simp only [healthSamples, List.mem_cons, List.not_mem_nil, or_false] at hs
    rcases hs with rfl | rfl
    all_goals norm_num [defaultSample] at hlt
  rw [if_neg hnohot]
  norm_num [healthSamples, defaultSample, List.getLast?, truncQ]

/-! ## Claim C8: independent recommendation rules -/

/-- C8: for every sample sequence of length ≥ 2 on which a report is
produced, the recommendation list is exactly the concatenation, in fixed
order, of the three independently evaluated advisories: latest
`temp_c > 40`, SoH < 80, and OLS discharge slope < −0.5 over the trailing
window; an input matching all three yields exactly those three advisories
and one matching none yields the empty list. -/
theorem recommendations_independent (samples : List Sample) (r : Report)
    (h2 : 2 ≤ samples.length) (h : analyze samples = some r) :
    r.recommendations =
      (if (samples.getLast?.getD defaultSample).temp_c > 40 then [tempAdvisory] else [])
        ++ (if (samples.getLast?.getD defaultSample).energy_full_wh /
              (samples.getLast?.getD defaultSample).energy_design_wh * 100 < 80
            then [sohAdvisory] else [])
        ++ (if olsSlope ((samples.drop (samples.length - 10)).map Sample.pct) < -(1 / 2)
            then [slopeAdvisory] else []) := by
  obtain ⟨hr, -⟩ := analyze_some samples r h2 h
  subst hr
  simp only [report_of]

/-- Witness for C8 at the triple-trigger input: exactly the three
advisories, in order. -/
theorem recommendations_independent_witness :
    2 ≤ tripleTriggerSamples.length
      ∧ analyze tripleTriggerSamples = some (report_of tripleTriggerSamples)
      ∧ (report_of tripleTriggerSamples).recommendations =
          [tempAdvisory, sohAdvisory, slopeAdvisory] := by
  have hsome : analyze tripleTriggerSamples = some (report_of tripleTriggerSamples) := by
    norm_num [analyze, tripleTriggerSamples, defaultSample, List.getLast?]
  refine ⟨by norm_num [tripleTriggerSamples], hsome, ?_⟩
  have h := recommendations_independent tripleTriggerSamples (report_of tripleTriggerSamples)
    (by norm_num [tripleTriggerSamples]) hsome
  rw [h]
  have e1 : (tripleTriggerSamples.getLast?.getD defaultSample).temp_c = 41 := rfl
  have e2 : (tripleTriggerSamples.getLast?.getD defaultSample).energy_full_wh = 75 := rfl
  have e3 : (tripleTriggerSamples.getLast?.getD defaultSample).energy_design_wh = 100 := rfl
  have e4 : (tripleTriggerSamples.drop (tripleTriggerSamples.length - 10)).map Sample.pct
      = [10, 47 / 5] := rfl
  rw [e1, e2, e3, e4, olsSlope_two]
  rw [if_pos (by norm_num), if_pos (by norm_num), if_pos (by norm_num)]
  rfl

/-! ## Claim C5: rolling-window voltage stability -/

/-- C5 counterexample: on a two-sample history (length ≥ 2 but < 5) every
rolling voltage window is shorter than 5 samples, so the rolling
standard-deviation series is all NaN, pandas' mean of it is NaN, and the
reported stability index is NaN (`none`) — not a well-defined number,
refuting "a well-defined number for every such sequence". -/
theorem stability_undefined_short_history :
    2 ≤ dischargeSamples.length
      ∧ analyze dischargeSamples = some (report_of dischargeSamples)
      ∧ (report_of dischargeSamples).stability = none := by
  refine ⟨by norm_num [dischargeSamples], ?_, ?_⟩
  · norm_num [analyze, dischargeSamples, defaultSample, List.getLast?]
  · simp only [report_of]
    rw [stabilityIndex_eq]
    norm_num [dischargeSamples]

/-- C5 (amended): whenever a report is produced on ≥ 2 samples, the
stability index equals `100 − 10·mean` of the sample standard deviations of
the voltage over the trailing full windows of 5 consecutive samples, rounded
to 2 decimals, provided at least 5 samples exist (each contributing window
has exactly 5 samples, shorter windows being excluded rather than counted as
zero); with 2–4 samples the rolling mean is over no windows and the index is
NaN (`none`). -/
theorem stability_rolling_mean (samples : List Sample) (r : Report)
    (h2 : 2 ≤ samples.length) (h : analyze samples = some r) :
    r.stability =
      (if 5 ≤ samples.length
        then some (roundR2 (100 -
          (((specWindows5 (samples.map Sample.voltage_v)).map sampleStd).sum /
            (((specWindows5 (samples.map Sample.voltage_v)).map sampleStd).length : ℝ)) * 10))
        else none)
      ∧ ∀ w ∈ specWindows5 (samples.map Sample.voltage_v), w.length = 5 := by
  obtain ⟨hr, -⟩ := analyze_some samples r h2 h
  subst hr
  refine ⟨?_, stability_window_lengths _⟩
  simp only [report_of]
  rw [stabilityIndex_eq, List.length_map]

/-- Witness for C5 (amended) at a five-sample history. -/
theorem stability_rolling_mean_witness :
    2 ≤ stabilitySamples5.length
      ∧ analyze stabilitySamples5 = some (report_of stabilitySamples5)
      ∧ (report_of stabilitySamples5).stability =
          some (roundR2 (100 -
            (((specWindows5 (stabilitySamples5.map Sample.voltage_v)).map sampleStd).sum /
              (((specWindows5 (stabilitySamples5.map Sample.voltage_v)).map
                  sampleStd).length : ℝ)) * 10)) := by
  have hsome : analyze stabilitySamples5 = some (report_of stabilitySamples5) := by
    norm_num [analyze, stabilitySamples5, defaultSample, List.getLast?]
  have h := stability_rolling_mean stabilitySamples5 (report_of stabilitySamples5)
    (by norm_num [stabilitySamples5]) hsome
  refine ⟨by norm_num [stabilitySamples5], hsome, ?_⟩
  rw [h.1, if_pos (by norm_num [stabilitySamples5])]

/-! ## Claim C7: discharge trend as an OLS slope -/

/-- C7: whenever a report is produced on ≥ 2 samples, the reported discharge
rate is the (rounded) ordinary-least-squares slope of the trailing (up to)
10 charge percents against index positions 0…n−1; a strictly decreasing
window yields a negative slope, a constant window yields slope 0, and with
exactly two points the slope is the simple difference of the two values. -/
theorem discharge_rate_ols (samples : List Sample) (r : Report)
    (h2 : 2 ≤ samples.length) (h : analyze samples = some r) :
    r.discharge_rate
        = roundQ 3 (olsSlope ((samples.drop (samples.length - 10)).map Sample.pct))
      ∧ ((∀ i j, i < j → j < ((samples.drop (samples.length - 10)).map Sample.pct).length →
            ((samples.drop (samples.length - 10)).map Sample.pct).getD j 0
              < ((samples.drop (samples.length - 10)).map Sample.pct).getD i 0) →
          olsSlope ((samples.drop (samples.length - 10)).map Sample.pct) < 0)
      ∧ (∀ c, (∀ x ∈ (samples.drop (samples.length - 10)).map Sample.pct, x = c) →
          olsSlope ((samples.drop (samples.length - 10)).map Sample.pct) = 0)
      ∧ (∀ a b, (samples.drop (samples.length - 10)).map Sample.pct = [a, b] →
          olsSlope ((samples.drop (samples.length - 10)).map Sample.pct) = b - a) := by
  have hwlen : 2 ≤ ((samples.drop (samples.length - 10)).map Sample.pct).length := by
    rw [List.length_map, List.length_drop]
    omega
  obtain ⟨hr, -⟩ := analyze_some samples r h2 h
  subst hr
  refine ⟨?_, ?_, ?_, ?_⟩
  · simp only [report_of]
  · intro hdec
    exact olsSlope_neg _ hwlen hdec
  · intro c hc
    exact olsSlope_const _ c hc
  · intro a b hab
    rw [hab, olsSlope_two]

/-- Witness for C7 at the strictly decreasing two-sample history 90, 80:
slope −10, matching the simple difference, and negative. -/
theorem discharge_rate_ols_witness :
    2 ≤ dischargeSamples.length
      ∧ analyze dischargeSamples = some (report_of dischargeSamples)
      ∧ (report_of dischargeSamples).discharge_rate = roundQ 3 (olsSlope [(90 : ℚ), 80])
      ∧ olsSlope [(90 : ℚ), 80] < 0
      ∧ olsSlope [(90 : ℚ), 80] = 80 - 90 := by
  have hsome : analyze dischargeSamples = some (report_of dischargeSamples) := by
    norm_num [analyze, dischargeSamples, defaultSample, List.getLast?]
  have h := discharge_rate_ols dischargeSamples (report_of dischargeSamples)
    (by norm_num [dischargeSamples]) hsome
  have hwin : (dischargeSamples.drop (dischargeSamples.length - 10)).map Sample.pct
      = [(90 : ℚ), 80] := rfl
  refine ⟨by norm_num [dischargeSamples], hsome, ?_, ?_, ?_⟩
  · rw [← hwin]
    exact h.1
  · rw [← hwin]
    apply h.2.1
    intro i j hij hj
    rw [hwin] at hj ⊢
    have hj2 : j < 2 := by simpa using hj
    have hj1 : j = 1 := by omega
    have hi0 : i = 0 := by omega
    subst hj1
    subst hi0
    norm_num
  · rw [← hwin]
    exact h.2.2.2 90 80 hwin

/-! ## Claim C10: first iteration always samples in high-res mode -/

/-- C10: on the very first capture iteration the remembered previous status
is the `None` sentinel from `__init__`, which compares unequal to every
status string, so the loop always selects the high-res interval 2. -/
theorem first_iteration_high_res (status : String) (power : ℚ) :
    nextInterval last_status_init status power = 2 := by
  unfold nextInterval last_status_init
  rw [if_pos]
  left
  simp
